import Mathlib

/-!
Verification of the AQI dashboard's aggregation and classification pipeline.

This file is a shallow embedding of the core data transformations of
`src/main.py` (an AirNow air-quality dashboard):

* `get_aqi_color`     — line 107: category label → display color,
* `get_aqi_category`  — line 122: AQI value (or null) → category label,
* `aggregateRow`      — lines 182–195: the per-row aggregation inside
  `get_california_aqi` (max-AQI pollutant wins),
* `get_california_aqi` — lines 165–205: the table enricher loop,
* `zipLookup`         — lines 402–425: the single-ZIP lookup flow.

Modelling conventions: Python `None` / a missing dict key is `Option`;
a Python dict access `obs['K']` that can raise `KeyError` is an
`Except String` accessor; an uncaught exception aborting the script is
`Except.error`; the fetch gateway `get_aqi` is an abstract function
`String → Option (List RawRecord)` (`none` = HTTP failure / caught
exception returning `None`, `some l` = decoded JSON list).  Coordinates
are floating-point in the source, but the core only passes them through
verbatim (no arithmetic), so they are modelled exactly by `Rat`.
Python integers are unbounded, hence `Int` for AQI values.
-/

/-- One raw upstream record as decoded from the AirNow JSON response.
Every field is optional: the upstream JSON may omit keys, and a Python
dict access on a missing key raises `KeyError` (see the accessors below).
`CategoryName` flattens the nested access `obs['Category']['Name']`. -/
structure RawRecord where
  ParameterName : Option String
  AQI : Option Int
  CategoryName : Option String
  Latitude : Option Rat
  Longitude : Option Rat
deriving DecidableEq, Repr

/-- A record is well-formed when it carries every field the pipeline
reads: this is the §4.1/§6 gateway contract "each record convertible to
an Observation". -/
def RawRecord.wf (r : RawRecord) : Prop :=
  r.AQI ≠ none ∧ r.CategoryName ≠ none ∧ r.Latitude ≠ none ∧ r.Longitude ≠ none

/-- Python dict access `obs['AQI']`: `KeyError` when the key is absent. -/
def keyAQI (r : RawRecord) : Except String Int :=
  match r.AQI with
  | some v => Except.ok v
  | none => Except.error "KeyError: AQI"

/-- Python dict access `obs['Category']['Name']`. -/
def keyCategoryName (r : RawRecord) : Except String String :=
  match r.CategoryName with
  | some v => Except.ok v
  | none => Except.error "KeyError: Category"

/-- Python dict access `obs['Latitude']`. -/
def keyLatitude (r : RawRecord) : Except String Rat :=
  match r.Latitude with
  | some v => Except.ok v
  | none => Except.error "KeyError: Latitude"

/-- Python dict access `obs['Longitude']`. -/
def keyLongitude (r : RawRecord) : Except String Rat :=
  match r.Longitude with
  | some v => Except.ok v
  | none => Except.error "KeyError: Longitude"

/-- The sort key `lambda x: x['AQI']` of line 185.  In the source this
access could raise, but `get_california_aqi` evaluates it only after
`max(obs['AQI'] for obs in aqi_data)` on line 184 has already succeeded,
so the AQI key is present on every record wherever this key function is
applied and the `getD 0` default is never observable. -/
def recKey (r : RawRecord) : Int := r.AQI.getD 0

/-- One step of CPython's `max`: the running maximum is replaced only on
a strictly greater key, so among equal keys the earlier element is kept. -/
def pyMaxStep {α : Type} (key : α → Int) (acc x : α) : α :=
  if key x > key acc then x else acc

/-- CPython `max(xs, key=key)`: a left fold with `pyMaxStep`, hence the
FIRST maximal element of the list wins ties; `none` on the empty list
(where Python raises `ValueError`). -/
def pyMaxBy {α : Type} (key : α → Int) : List α → Option α
  | [] => none
  | x :: xs => some (xs.foldl (pyMaxStep key) x)

/-- One step of CPython `max` on integers. -/
def intMaxStep (a b : Int) : Int := if b > a then b else a

/-- CPython `max` over a nonempty integer sequence, given as head plus tail. -/
def pyMaxIntNE (x : Int) (xs : List Int) : Int := xs.foldl intMaxStep x

/-- CPython `max(xs)` on integers; `none` on the empty sequence
(where Python raises `ValueError`). -/
def pyMaxInt : List Int → Option Int
  | [] => none
  | x :: xs => some (pyMaxIntNE x xs)

/-- The generator `(obs['AQI'] for obs in aqi_data)` of line 184, forced
left to right as `max` consumes it: the first record missing the AQI key
raises `KeyError`, aborting the whole expression. -/
def extractAQIs : List RawRecord → Except String (List Int)
  | [] => Except.ok []
  | r :: rs =>
    match keyAQI r with
    | Except.error e => Except.error e
    | Except.ok v =>
      match extractAQIs rs with
      | Except.error e => Except.error e
      | Except.ok vs => Except.ok (v :: vs)

/-- The per-location overall reading: the four derived values produced by
lines 184–190 (max AQI, selected observation's category and coordinates). -/
structure OverallResult where
  aqi : Int
  category : String
  latitude : Rat
  longitude : Rat
deriving DecidableEq, Repr

/-- Lines 182–195 of `get_california_aqi`, the per-row aggregation:

```
if aqi_data and len(aqi_data) > 0:
    max_aqi = max(obs['AQI'] for obs in aqi_data)
    max_obs = max(aqi_data, key=lambda x: x['AQI'])
    ... append max_aqi, max_obs['Category']['Name'],
        max_obs['Latitude'], max_obs['Longitude'] ...
else:
    ... append None to all four lists ...
```

`none` input models a falsy `aqi_data` (fetch returned `None`); an empty
list is also falsy.  Uncaught `KeyError`s become `Except.error` in source
evaluation order (line 184 first, then category, latitude, longitude). -/
def aggregateRow (aqi_data : Option (List RawRecord)) : Except String (Option OverallResult) :=
  match aqi_data with
  | none => Except.ok none
  | some l =>
    if 0 < l.length then
      match extractAQIs l with
      | Except.error e => Except.error e
      | Except.ok aqis =>
        match pyMaxInt aqis, pyMaxBy recKey l with
        | some max_aqi, some max_obs =>
          match keyCategoryName max_obs, keyLatitude max_obs, keyLongitude max_obs with
          | Except.ok cat, Except.ok lat, Except.ok lon =>
            Except.ok (some { aqi := max_aqi, category := cat, latitude := lat, longitude := lon })
          | Except.error e, _, _ => Except.error e
          | _, Except.error e, _ => Except.error e
          | _, _, Except.error e => Except.error e
        | _, _ => Except.error "ValueError: max() arg is an empty sequence"
    else Except.ok none

/-- One row of the California city table.  `City` and `ZIPCode` come from
the static CSV; the four derived columns (`AQI`, `AQICategory`,
`Latitude`, `Longitude`) are the ones `get_california_aqi` assigns, so
they are optional (absent before enrichment or on a failed lookup). -/
structure LocationRow where
  City : String
  ZIPCode : String
  AQI : Option Int
  AQICategory : Option String
  Latitude : Option Rat
  Longitude : Option Rat
deriving DecidableEq, Repr

/-- One iteration of the loop of lines 176–195 for a single row, plus that
row's share of the column assignments of lines 200–203: the row keeps its
static fields and its four derived columns are overwritten from the
aggregation of `get_aqi(row['ZIP Code'])`. -/
def enrichRow (fetch : String → Option (List RawRecord)) (row : LocationRow) :
    Except String LocationRow :=
  match aggregateRow (fetch row.ZIPCode) with
  | Except.error e => Except.error e
  | Except.ok d =>
    Except.ok { row with
      AQI := d.map OverallResult.aqi,
      AQICategory := d.map OverallResult.category,
      Latitude := d.map OverallResult.latitude,
      Longitude := d.map OverallResult.longitude }

/-- Lines 165–205: the table enricher.  Rows are processed strictly in
order; an uncaught exception in any row aborts the whole function (the
Streamlit script stops), modelled by `Except.error`. -/
def get_california_aqi (fetch : String → Option (List RawRecord)) :
    List LocationRow → Except String (List LocationRow)
  | [] => Except.ok []
  | row :: rest =>
    match enrichRow fetch row with
    | Except.error e => Except.error e
    | Except.ok r =>
      match get_california_aqi fetch rest with
      | Except.error e => Except.error e
      | Except.ok rs => Except.ok (r :: rs)

/-- Lines 122–137: `get_aqi_category`.  `none` models Python `None`. -/
def get_aqi_category (aqi : Option Int) : String :=
  match aqi with
  | none => "Unknown"
  | some a =>
    if a ≤ 50 then "Good"
    else if a ≤ 100 then "Moderate"
    else if a ≤ 150 then "Unhealthy for Sensitive Groups"
    else if a ≤ 200 then "Unhealthy"
    else if a ≤ 300 then "Very Unhealthy"
    else "Hazardous"

/-- Lines 107–117: `get_aqi_color`, the dict literal plus
`color_map.get(category, 'gray')`.  A Python dict literal with distinct
string keys looked up with `.get` is exactly this chain of equality
tests with a default. -/
def get_aqi_color (category : String) : String :=
  if category = "Good" then "green"
  else if category = "Moderate" then "yellow"
  else if category = "Unhealthy for Sensitive Groups" then "orange"
  else if category = "Unhealthy" then "red"
  else if category = "Very Unhealthy" then "purple"
  else if category = "Hazardous" then "darkred"
  else "gray"

/-- The six real EPA category labels, in severity order. -/
def realCategories : List String :=
  ["Good", "Moderate", "Unhealthy for Sensitive Groups",
   "Unhealthy", "Very Unhealthy", "Hazardous"]

/-- Python `str.isdigit()` restricted to ASCII strings: nonempty and
every character in `'0'..'9'`.  (Python additionally accepts some
non-ASCII Unicode digit characters; theorems exercising this model on
the digit test therefore carry an ASCII-input hypothesis.) -/
def pyIsdigit (s : String) : Bool :=
  s.length != 0 && s.data.all (fun c => ('0' ≤ c) && (c ≤ '9'))

/-- The observable outcome of one press of the Search button in the
ZIP Code Lookup tab (lines 402–438). -/
inductive LookupOutcome where
  | noAction
  | validationError
  | noData
  | success (max_aqi : Int) (category : String) (color : String)
  | crash (msg : String)
deriving DecidableEq, Repr

/-- Lines 402–425, with the search button pressed: the guard
`if search_button and zip_input:` (empty `zip_input` is falsy, so
nothing at all happens), the validation
`if len(zip_input) != 5 or not zip_input.isdigit():`, and on success
`max_aqi = max(obs['AQI'] for obs in aqi_data)`,
`category = get_aqi_category(max_aqi)`, `color = get_aqi_color(category)`.
The second component records whether the fetch gateway `get_aqi` was
invoked for this input. -/
def zipLookup (fetch : String → Option (List RawRecord)) (zip_input : String) :
    LookupOutcome × Bool :=
  if zip_input.length ≠ 0 then
    if zip_input.length ≠ 5 ∨ pyIsdigit zip_input = false then
      (LookupOutcome.validationError, false)
    else
      match fetch zip_input with
      | none => (LookupOutcome.noData, true)
      | some aqi_data =>
        if 0 < aqi_data.length then
          match extractAQIs aqi_data with
          | Except.error e => (LookupOutcome.crash e, true)
          | Except.ok aqis =>
            match pyMaxInt aqis with
            | none => (LookupOutcome.crash "ValueError: max() arg is an empty sequence", true)
            | some max_aqi =>
              (LookupOutcome.success max_aqi (get_aqi_category (some max_aqi))
                (get_aqi_color (get_aqi_category (some max_aqi))), true)
        else (LookupOutcome.noData, true)
  else (LookupOutcome.noAction, false)

/-- C3: `get_aqi_category` is a total, deterministic function (it is a
Lean function, total by construction): null maps to "Unknown", which is
none of the six real categories, and the inclusive breakpoints are exact:
aqi ≤ 50 → Good, 51–100 → Moderate, 101–150 → Unhealthy for Sensitive
Groups, 151–200 → Unhealthy, 201–300 → Very Unhealthy, > 300 → Hazardous,
over all integers ≥ 0. -/
theorem get_aqi_category_breakpoints :
    get_aqi_category none = "Unknown" ∧
    (∀ c ∈ realCategories, "Unknown" ≠ c) ∧
    (∀ a : Int, 0 ≤ a →
      ((a ≤ 50 → get_aqi_category (some a) = "Good") ∧
       (51 ≤ a ∧ a ≤ 100 → get_aqi_category (some a) = "Moderate") ∧
       (101 ≤ a ∧ a ≤ 150 → get_aqi_category (some a) = "Unhealthy for Sensitive Groups") ∧
       (151 ≤ a ∧ a ≤ 200 → get_aqi_category (some a) = "Unhealthy") ∧
       (201 ≤ a ∧ a ≤ 300 → get_aqi_category (some a) = "Very Unhealthy") ∧
       (300 < a → get_aqi_category (some a) = "Hazardous"))) := by
  refine ⟨rfl, by decide, ?_⟩
  intro a _
  refine ⟨?_, ?_, ?_, ?_, ?_, ?_⟩
  · intro h
    simp [get_aqi_category, h]
  · intro h
    simp only [get_aqi_category]
    rw [if_neg (by omega), if_pos (by omega)]
  · intro h
    simp only [get_aqi_category]
    rw [if_neg (by omega), if_neg (by omega), if_pos (by omega)]
  · intro h
    simp only [get_aqi_category]
    rw [if_neg (by omega), if_neg (by omega), if_neg (by omega), if_pos (by omega)]
  · intro h
    simp only [get_aqi_category]
    rw [if_neg (by omega), if_neg (by omega), if_neg (by omega), if_neg (by omega),
      if_pos (by omega)]
  · intro h
    simp only [get_aqi_category]
    rw [if_neg (by omega), if_neg (by omega), if_neg (by omega), if_neg (by omega),
      if_neg (by omega)]

/-- Witness for C3: the breakpoint theorem applied at the concrete
boundary inputs 50, 51 and 301. -/
theorem get_aqi_category_breakpoints_witness :
    get_aqi_category (some 50) = "Good" ∧
    get_aqi_category (some 51) = "Moderate" ∧
    get_aqi_category (some 301) = "Hazardous" :=
  ⟨(get_aqi_category_breakpoints.2.2 50 (by decide)).1 (by decide),
   ((get_aqi_category_breakpoints.2.2 51 (by decide)).2.1 (by decide)),
   ((get_aqi_category_breakpoints.2.2 301 (by decide)).2.2.2.2.2 (by decide))⟩

/-- C7: `get_aqi_color` is total: each of the six known categories maps
to its fixed color token, and "Unknown" or any other unrecognized string
maps to gray, so the result is never unmapped. -/
theorem get_aqi_color_total :
    get_aqi_color "Good" = "green" ∧
    get_aqi_color "Moderate" = "yellow" ∧
    get_aqi_color "Unhealthy for Sensitive Groups" = "orange" ∧
    get_aqi_color "Unhealthy" = "red" ∧
    get_aqi_color "Very Unhealthy" = "purple" ∧
    get_aqi_color "Hazardous" = "darkred" ∧
    (∀ s : String, s ∉ realCategories → get_aqi_color s = "gray") := by
  refine ⟨rfl, rfl, rfl, rfl, rfl, rfl, ?_⟩
  intro s hs
  simp only [realCategories, List.mem_cons, List.not_mem_nil, or_false, not_or] at hs
  obtain ⟨h1, h2, h3, h4, h5, h6⟩ := hs
  simp [get_aqi_color, h1, h2, h3, h4, h5, h6]

/-- Witness for C7: the totality theorem applied at the concrete
unrecognized labels "Unknown" and "whatever". -/
theorem get_aqi_color_total_witness :
    get_aqi_color "Unknown" = "gray" ∧ get_aqi_color "whatever" = "gray" :=
  ⟨get_aqi_color_total.2.2.2.2.2.2 "Unknown" (by decide),
   get_aqi_color_total.2.2.2.2.2.2 "whatever" (by decide)⟩

/-- `List.find?` on a cons whose head satisfies the predicate. -/
theorem find_cons_pos {α : Type} (p : α → Bool) (a : α) (l : List α) (h : p a = true) :
    (a :: l).find? p = some a := by
  simp [List.find?, h]

/-- `List.find?` on a cons whose head fails the predicate. -/
theorem find_cons_neg {α : Type} (p : α → Bool) (a : α) (l : List α) (h : p a = false) :
    (a :: l).find? p = l.find? p := by
  simp [List.find?, h]

/-- Applying the key under one `pyMaxStep` is one `intMaxStep` on keys. -/
theorem key_pyMaxStep {α : Type} (key : α → Int) (acc x : α) :
    key (pyMaxStep key acc x) = intMaxStep (key acc) (key x) := by
  unfold pyMaxStep intMaxStep
  split <;> rfl

/-- The key of the running maximum of `pyMaxBy` is the running maximum of
the keys: lines 184 and 185 compute the same number. -/
theorem key_foldl_pyMaxStep {α : Type} (key : α → Int) :
    ∀ (xs : List α) (x : α),
      key (xs.foldl (pyMaxStep key) x) = pyMaxIntNE (key x) (xs.map key) := by
  intro xs
  induction xs with
  | nil => intro x; rfl
  | cons y ys ih =>
    intro x
    simp only [List.foldl_cons, List.map_cons, pyMaxIntNE]
    rw [show (List.foldl intMaxStep (intMaxStep (key x) (key y)) (List.map key ys)
          = pyMaxIntNE (intMaxStep (key x) (key y)) (List.map key ys)) from rfl]
    rw [← key_pyMaxStep key x y]
    exact ih (pyMaxStep key x y)

/-- The initial value is bounded by the running integer maximum. -/
theorem le_pyMaxIntNE : ∀ (xs : List Int) (x : Int), x ≤ pyMaxIntNE x xs := by
  intro xs
  induction xs with
  | nil => intro x; exact le_refl x
  | cons y ys ih =>
    intro x
    have h1 : x ≤ intMaxStep x y := by unfold intMaxStep; split <;> omega
    have h2 : intMaxStep x y ≤ pyMaxIntNE (intMaxStep x y) ys := ih (intMaxStep x y)
    calc x ≤ intMaxStep x y := h1
      _ ≤ pyMaxIntNE (intMaxStep x y) ys := h2
      _ = pyMaxIntNE x (y :: ys) := rfl

/-- Every element of the sequence is bounded by the running integer maximum. -/
theorem mem_le_pyMaxIntNE : ∀ (xs : List Int) (x : Int), ∀ y ∈ xs, y ≤ pyMaxIntNE x xs := by
  intro xs
  induction xs with
  | nil => intro x y hy; cases hy
  | cons z zs ih =>
    intro x y hy
    rcases List.mem_cons.mp hy with h | h
    · subst h
      have h1 : y ≤ intMaxStep x y := by unfold intMaxStep; split <;> omega
      exact le_trans h1 (le_pyMaxIntNE zs (intMaxStep x y))
    · exact ih (intMaxStep x z) y h

/-- The result of the `pyMaxBy` fold is the initial element or a list element. -/
theorem foldl_pyMaxStep_mem {α : Type} (key : α → Int) :
    ∀ (xs : List α) (x : α),
      xs.foldl (pyMaxStep key) x = x ∨ xs.foldl (pyMaxStep key) x ∈ xs := by
  intro xs
  induction xs with
  | nil => intro x; exact Or.inl rfl
  | cons y ys ih =>
    intro x
    rw [List.foldl_cons]
    rcases ih (pyMaxStep key x y) with h | h
    · rw [h]
      unfold pyMaxStep
      split
      · exact Or.inr (List.mem_cons_self _ _)
      · exact Or.inl rfl
    · exact Or.inr (List.mem_cons_of_mem y h)

/-- First-maximal characterization of CPython `max(l, key=key)`: the fold
result is exactly the FIRST list element whose key attains the maximum of
all keys.  This is the tie-break rule of §4.3. -/
theorem foldl_pyMaxStep_eq_find {α : Type} (key : α → Int) :
    ∀ (xs : List α) (x : α),
      (x :: xs).find? (fun r => key r == pyMaxIntNE (key x) (xs.map key))
        = some (xs.foldl (pyMaxStep key) x) := by
  intro xs
  induction xs with
  | nil =>
    intro x
    have hx : (fun r => key r == pyMaxIntNE (key x) (List.map key ([] : List α))) x = true :=
      beq_iff_eq.mpr rfl
    simp only [List.foldl_nil]
    exact find_cons_pos _ x [] hx
  | cons y ys ih =>
    intro x
    by_cases h : key y > key x
    · -- the step replaces the running maximum with y
      have hstep : pyMaxStep key x y = y := by unfold pyMaxStep; rw [if_pos h]
      have hmax : pyMaxIntNE (key x) ((y :: ys).map key) = pyMaxIntNE (key y) (ys.map key) := by
        simp only [List.map_cons, pyMaxIntNE, List.foldl_cons]
        have hs : intMaxStep (key x) (key y) = key y := by unfold intMaxStep; rw [if_pos h]
        rw [hs]
      have hylemax : key y ≤ pyMaxIntNE (key y) (ys.map key) := le_pyMaxIntNE _ _
      have hxne : (fun r => key r == pyMaxIntNE (key y) (ys.map key)) x = false :=
        beq_eq_false_iff_ne.mpr (by omega)
      rw [hmax, find_cons_neg _ x _ hxne, List.foldl_cons, hstep]
      exact ih y
    · -- the step keeps the running maximum x
      have hstep : pyMaxStep key x y = x := by unfold pyMaxStep; rw [if_neg h]
      have hmax : pyMaxIntNE (key x) ((y :: ys).map key) = pyMaxIntNE (key x) (ys.map key) := by
        simp only [List.map_cons, pyMaxIntNE, List.foldl_cons]
        have hs : intMaxStep (key x) (key y) = key x := by unfold intMaxStep; rw [if_neg h]
        rw [hs]
      rw [hmax, List.foldl_cons, hstep]
      by_cases hx : key x = pyMaxIntNE (key x) (ys.map key)
      · have hpx : (fun r => key r == pyMaxIntNE (key x) (ys.map key)) x = true :=
          beq_iff_eq.mpr hx
        rw [find_cons_pos _ x _ hpx]
        have hih := ih x
        rw [find_cons_pos _ x _ hpx] at hih
        exact hih
      · have hxlt : key x < pyMaxIntNE (key x) (ys.map key) :=
          lt_of_le_of_ne (le_pyMaxIntNE _ _) hx
        have hpx : (fun r => key r == pyMaxIntNE (key x) (ys.map key)) x = false :=
          beq_eq_false_iff_ne.mpr hx
        have hpy : (fun r => key r == pyMaxIntNE (key x) (ys.map key)) y = false :=
          beq_eq_false_iff_ne.mpr (by omega)
        rw [find_cons_neg _ x _ hpx, find_cons_neg _ y _ hpy]
        have hih := ih x
        rw [find_cons_neg _ x _ hpx] at hih
        exact hih

/-- When every record carries its AQI key, the generator of line 184
succeeds and yields exactly the list of AQI values. -/
theorem extractAQIs_ok : ∀ l : List RawRecord, (∀ r ∈ l, r.AQI ≠ none) →
    extractAQIs l = Except.ok (l.map recKey) := by
  intro l
  induction l with
  | nil => intro _; rfl
  | cons r rs ih =>
    intro h
    have hr : r.AQI ≠ none := h r (List.mem_cons_self r rs)
    cases hv : r.AQI with
    | none => exact absurd hv hr
    | some v =>
      have hkey : keyAQI r = Except.ok v := by unfold keyAQI; rw [hv]
      have hrec : recKey r = v := by unfold recKey; rw [hv]; rfl
      have hrs : extractAQIs rs = Except.ok (rs.map recKey) :=
        ih (fun s hs => h s (List.mem_cons_of_mem r hs))
      simp only [extractAQIs, hkey, hrs, List.map_cons, hrec]

/-- On a nonempty list of well-formed records, the per-row aggregation of
lines 182–190 succeeds and every derived field comes from the single
observation selected by the `pyMaxBy` fold. -/
theorem aggregateRow_of_wf (x : RawRecord) (xs : List RawRecord)
    (hwf : ∀ r ∈ x :: xs, RawRecord.wf r) :
    ∃ cat lat lon,
      (xs.foldl (pyMaxStep recKey) x).CategoryName = some cat ∧
      (xs.foldl (pyMaxStep recKey) x).Latitude = some lat ∧
      (xs.foldl (pyMaxStep recKey) x).Longitude = some lon ∧
      aggregateRow (some (x :: xs)) =
        Except.ok (some { aqi := recKey (xs.foldl (pyMaxStep recKey) x),
                          category := cat, latitude := lat, longitude := lon }) := by
  have hselmem : xs.foldl (pyMaxStep recKey) x ∈ x :: xs := by
    rcases foldl_pyMaxStep_mem recKey xs x with h | h
    · rw [h]; exact List.mem_cons_self x xs
    · exact List.mem_cons_of_mem x h
  obtain ⟨hAQI, hCat, hLat, hLon⟩ := hwf _ hselmem
  obtain ⟨cat, hcat⟩ := Option.ne_none_iff_exists'.mp hCat
  obtain ⟨lat, hlat⟩ := Option.ne_none_iff_exists'.mp hLat
  obtain ⟨lon, hlon⟩ := Option.ne_none_iff_exists'.mp hLon
  refine ⟨cat, lat, lon, hcat, hlat, hlon, ?_⟩
  have hext : extractAQIs (x :: xs) = Except.ok ((x :: xs).map recKey) :=
    extractAQIs_ok _ (fun r hr => (hwf r hr).1)
  have hkcat : keyCategoryName (xs.foldl (pyMaxStep recKey) x) = Except.ok cat := by
    unfold keyCategoryName; rw [hcat]
  have hklat : keyLatitude (xs.foldl (pyMaxStep recKey) x) = Except.ok lat := by
    unfold keyLatitude; rw [hlat]
  have hklon : keyLongitude (xs.foldl (pyMaxStep recKey) x) = Except.ok lon := by
    unfold keyLongitude; rw [hlon]
  have hk : pyMaxIntNE (recKey x) (xs.map recKey) = recKey (xs.foldl (pyMaxStep recKey) x) :=
    (key_foldl_pyMaxStep recKey xs x).symm
  simp only [aggregateRow, hext, List.length_cons, List.map_cons, pyMaxInt, pyMaxBy,
    if_pos (Nat.succ_pos xs.length), hk, hkcat, hklat, hklon]

/-- C1: on every non-empty list of well-formed observations, the
Aggregator selects the observation with the maximum AQI value, ties
broken by the first such observation in input order (formalized: the
selected element is the `find?`-first element attaining the maximal key,
and no re-sorting occurs since `pyMaxBy` is a single left fold over the
input), and the aggregation result's `aqi` field equals that selected
observation's AQI. -/
theorem aggregator_selects_first_max (l : List RawRecord) (hne : l ≠ [])
    (hwf : ∀ r ∈ l, RawRecord.wf r) :
    ∃ sel res,
      pyMaxBy recKey l = some sel ∧
      sel ∈ l ∧
      (∀ r ∈ l, recKey r ≤ recKey sel) ∧
      l.find? (fun r => recKey r == recKey sel) = some sel ∧
      aggregateRow (some l) = Except.ok (some res) ∧
      res.aqi = recKey sel := by
  cases l with
  | nil => exact absurd rfl hne
  | cons x xs =>
    obtain ⟨cat, lat, lon, _, _, _, hagg⟩ := aggregateRow_of_wf x xs hwf
    have hk : recKey (xs.foldl (pyMaxStep recKey) x) = pyMaxIntNE (recKey x) (xs.map recKey) :=
      key_foldl_pyMaxStep recKey xs x
    refine ⟨xs.foldl (pyMaxStep recKey) x,
      { aqi := recKey (xs.foldl (pyMaxStep recKey) x),
        category := cat, latitude := lat, longitude := lon },
      rfl, ?_, ?_, ?_, hagg, rfl⟩
    · rcases foldl_pyMaxStep_mem recKey xs x with h | h
      · rw [h]; exact List.mem_cons_self x xs
      · exact List.mem_cons_of_mem x h
    · intro r hr
      rw [hk]
      rcases List.mem_cons.mp hr with h | h
      · rw [h]; exact le_pyMaxIntNE _ _
      · exact mem_le_pyMaxIntNE (xs.map recKey) (recKey x) (recKey r)
          (List.mem_map_of_mem recKey h)
    · rw [hk]
      exact foldl_pyMaxStep_eq_find recKey xs x


instance : DecidablePred RawRecord.wf := fun r => by
  unfold RawRecord.wf
  infer_instance

/-- §8 tie example, first observation: PM2.5 at AQI 60. -/
def tiePM25 : RawRecord :=
  { ParameterName := some "PM2.5", AQI := some 60, CategoryName := some "Moderate",
    Latitude := some 1, Longitude := some 2 }

/-- §8 tie example, second observation: O3 at AQI 60. -/
def tieO3 : RawRecord :=
  { ParameterName := some "O3", AQI := some 60, CategoryName := some "Moderate",
    Latitude := some 3, Longitude := some 4 }

/-- §8 example pair with distinct AQI values: PM2.5 at 40, O3 at 85. -/
def exPM25 : RawRecord :=
  { ParameterName := some "PM2.5", AQI := some 40, CategoryName := some "Good",
    Latitude := some 1, Longitude := some 2 }

/-- §8 example pair with distinct AQI values, the larger reading. -/
def exO3 : RawRecord :=
  { ParameterName := some "O3", AQI := some 85, CategoryName := some "Moderate",
    Latitude := some 3, Longitude := some 4 }

/-- Witness for C1: the theorem applied to the §8 tie example
`[(PM2.5, 60), (O3, 60)]`. -/
theorem aggregator_selects_first_max_witness :
    ∃ sel res,
      pyMaxBy recKey [tiePM25, tieO3] = some sel ∧
      sel ∈ [tiePM25, tieO3] ∧
      (∀ r ∈ [tiePM25, tieO3], recKey r ≤ recKey sel) ∧
      List.find? (fun r => recKey r == recKey sel) [tiePM25, tieO3] = some sel ∧
      aggregateRow (some [tiePM25, tieO3]) = Except.ok (some res) ∧
      res.aqi = recKey sel :=
  aggregator_selects_first_max [tiePM25, tieO3] (by decide) (by decide)

/-- C9: on every non-empty list of well-formed observations, the two
independent computations of lines 184 and 185 agree — the maximum over
all AQI values equals the AQI of the observation chosen by argmax — and
all four derived fields of the aggregation describe that one single
observation. -/
theorem max_agrees_with_argmax (l : List RawRecord) (hne : l ≠ [])
    (hwf : ∀ r ∈ l, RawRecord.wf r) :
    ∃ m, pyMaxBy recKey l = some m ∧
      pyMaxInt (l.map recKey) = some (recKey m) ∧
      ∃ cat lat lon,
        m.CategoryName = some cat ∧ m.Latitude = some lat ∧ m.Longitude = some lon ∧
        aggregateRow (some l) =
          Except.ok (some { aqi := recKey m, category := cat, latitude := lat,
                            longitude := lon }) := by
  cases l with
  | nil => exact absurd rfl hne
  | cons x xs =>
    obtain ⟨cat, lat, lon, hcat, hlat, hlon, hagg⟩ := aggregateRow_of_wf x xs hwf
    refine ⟨xs.foldl (pyMaxStep recKey) x, rfl, ?_, cat, lat, lon, hcat, hlat, hlon, hagg⟩
    simp only [List.map_cons, pyMaxInt, key_foldl_pyMaxStep recKey xs x]

/-- Witness for C9: the theorem applied to the §8 example
`[(PM2.5, 40), (O3, 85)]`. -/
theorem max_agrees_with_argmax_witness :
    ∃ m, pyMaxBy recKey [exPM25, exO3] = some m ∧
      pyMaxInt (List.map recKey [exPM25, exO3]) = some (recKey m) ∧
      ∃ cat lat lon,
        m.CategoryName = some cat ∧ m.Latitude = some lat ∧ m.Longitude = some lon ∧
        aggregateRow (some [exPM25, exO3]) =
          Except.ok (some { aqi := recKey m, category := cat, latitude := lat,
                            longitude := lon }) :=
  max_agrees_with_argmax [exPM25, exO3] (by decide) (by decide)

/-- The single-observation record used to expose the lookup flow's
category recomputation: upstream reports category "Good" for AQI 60,
while the Classifier maps 60 to "Moderate". -/
def discRec : RawRecord :=
  { ParameterName := some "O3", AQI := some 60, CategoryName := some "Good",
    Latitude := some 1, Longitude := some 2 }

/-- A fetch gateway returning `[discRec]` for every ZIP code. -/
def discFetch : String → Option (List RawRecord) := fun _ => some [discRec]

/-- Counterexample for C2: in the single-ZIP lookup flow the category is
NOT taken verbatim from the selected observation — `discRec` reports
category "Good" for AQI 60, yet the lookup flow displays "Moderate"
(recomputed by `get_aqi_category` from the max AQI on line 412). -/
theorem lookup_category_not_verbatim_counterexample :
    pyMaxBy recKey [discRec] = some discRec ∧
    discRec.CategoryName = some "Good" ∧
    (zipLookup discFetch "90210").1 = LookupOutcome.success 60 "Moderate" "yellow" ∧
    "Moderate" ≠ "Good" := by decide

/-- C2 as amended: in the table-enrichment flow the result's category and
coordinates are taken verbatim from the selected maximum-AQI observation
(not recomputed from the Classifier); in the single-ZIP lookup flow the
displayed category is instead recomputed by the Classifier from the
maximum AQI, and the selected observation's category and coordinates are
not used. -/
theorem category_verbatim_table_recomputed_lookup :
    (∀ (l : List RawRecord), l ≠ [] → (∀ r ∈ l, RawRecord.wf r) →
      ∃ sel cat lat lon,
        pyMaxBy recKey l = some sel ∧
        sel.CategoryName = some cat ∧ sel.Latitude = some lat ∧ sel.Longitude = some lon ∧
        aggregateRow (some l) =
          Except.ok (some { aqi := recKey sel, category := cat, latitude := lat,
                            longitude := lon })) ∧
    (∀ (fetch : String → Option (List RawRecord)) (zip : String) (l : List RawRecord),
      zip.length = 5 → pyIsdigit zip = true → fetch zip = some l → l ≠ [] →
      (∀ r ∈ l, r.AQI ≠ none) →
      ∃ M, pyMaxInt (l.map recKey) = some M ∧
        (zipLookup fetch zip).1 =
          LookupOutcome.success M (get_aqi_category (some M))
            (get_aqi_color (get_aqi_category (some M)))) := by
  constructor
  · intro l hne hwf
    cases l with
    | nil => exact absurd rfl hne
    | cons x xs =>
      obtain ⟨cat, lat, lon, hcat, hlat, hlon, hagg⟩ := aggregateRow_of_wf x xs hwf
      exact ⟨xs.foldl (pyMaxStep recKey) x, cat, lat, lon, rfl, hcat, hlat, hlon, hagg⟩
  · intro fetch zip l hlen hdig hfetch hne hAQI
    cases l with
    | nil => exact absurd rfl hne
    | cons x xs =>
      refine ⟨pyMaxIntNE (recKey x) (xs.map recKey), rfl, ?_⟩
      have hext : extractAQIs (x :: xs) = Except.ok ((x :: xs).map recKey) :=
        extractAQIs_ok _ hAQI
      have hcond : ¬(zip.length ≠ 5 ∨ pyIsdigit zip = false) := by
        intro hc
        rcases hc with hc | hc
        · exact hc hlen
        · rw [hdig] at hc; cases hc
      simp only [zipLookup, if_neg hcond, if_pos (by omega : zip.length ≠ 0), hfetch,
        hext, List.map_cons, pyMaxInt]
      have hlt : 0 < (x :: xs).length := by exact Nat.succ_pos xs.length
      rw [if_pos hlt]

/-- Witness for the amended C2: both conjuncts applied at concrete inputs
(the tie pair for the table flow; `discFetch` at ZIP 90210, where the
recomputed category "Moderate" is displayed). -/
theorem category_verbatim_table_recomputed_lookup_witness :
    (∃ sel cat lat lon,
      pyMaxBy recKey [tiePM25, tieO3] = some sel ∧
      sel.CategoryName = some cat ∧ sel.Latitude = some lat ∧ sel.Longitude = some lon ∧
      aggregateRow (some [tiePM25, tieO3]) =
        Except.ok (some { aqi := recKey sel, category := cat, latitude := lat,
                          longitude := lon })) ∧
    (∃ M, pyMaxInt (List.map recKey [discRec]) = some M ∧
      (zipLookup discFetch "90210").1 =
        LookupOutcome.success M (get_aqi_category (some M))
          (get_aqi_color (get_aqi_category (some M)))) :=
  ⟨category_verbatim_table_recomputed_lookup.1 [tiePM25, tieO3] (by decide) (by decide),
   category_verbatim_table_recomputed_lookup.2 discFetch "90210" [discRec]
     (by decide) (by decide) rfl (by decide) (by decide)⟩

/-- A record lacking the AQI key: upstream malformed input for C6. -/
def badRec : RawRecord :=
  { ParameterName := some "PM2.5", AQI := none, CategoryName := some "Good",
    Latitude := some 5, Longitude := some 6 }

/-- A static row of the California table used in concrete tables. -/
def rowLA : LocationRow :=
  { City := "Los Angeles", ZIPCode := "90001",
    AQI := none, AQICategory := none, Latitude := none, Longitude := none }

/-- Counterexample for C6: a record lacking the AQI field is NOT excluded
from the observation list.  With `[exPM25, badRec]` the aggregation
raises `KeyError` instead of producing the result `[exPM25]` alone would
give, and the whole table enrichment aborts. -/
theorem malformed_record_not_excluded_counterexample :
    aggregateRow (some [exPM25, badRec]) = Except.error "KeyError: AQI" ∧
    aggregateRow (some [exPM25]) =
      Except.ok (some { aqi := 40, category := "Good", latitude := 1, longitude := 2 }) ∧
    get_california_aqi (fun _ => some [exPM25, badRec]) [rowLA] =
      Except.error "KeyError: AQI" :=
  ⟨rfl, rfl, rfl⟩

/-- When some record lacks the AQI key, the generator of line 184 raises. -/
theorem extractAQIs_err : ∀ l : List RawRecord, (∃ r ∈ l, r.AQI = none) →
    extractAQIs l = Except.error "KeyError: AQI" := by
  intro l
  induction l with
  | nil => intro h; obtain ⟨r, hr, _⟩ := h; cases hr
  | cons r rs ih =>
    intro h
    cases hv : r.AQI with
    | none =>
      have hkey : keyAQI r = Except.error "KeyError: AQI" := by unfold keyAQI; rw [hv]
      simp only [extractAQIs, hkey]
    | some v =>
      have hkey : keyAQI r = Except.ok v := by unfold keyAQI; rw [hv]
      obtain ⟨s, hs, hsnone⟩ := h
      rcases List.mem_cons.mp hs with hh | hh
      · rw [hh, hv] at hsnone; simp at hsnone
      · have hrs : extractAQIs rs = Except.error "KeyError: AQI" := ih ⟨s, hh, hsnone⟩
        simp only [extractAQIs, hkey, hrs]

/-- C6 as amended: an individual record lacking the required AQI field is
NOT silently excluded from the observation list — there is no decoding or
filtering step.  Instead the per-location aggregation raises `KeyError`
(modelled as `Except.error`), failing the whole location's lookup, so the
pipeline produces a result only when every record of a nonempty fetch
result carries the required fields. -/
theorem missing_aqi_key_aborts_location (l : List RawRecord)
    (h : ∃ r ∈ l, r.AQI = none) :
    aggregateRow (some l) = Except.error "KeyError: AQI" := by
  cases l with
  | nil => obtain ⟨r, hr, _⟩ := h; cases hr
  | cons x xs =>
    have hext : extractAQIs (x :: xs) = Except.error "KeyError: AQI" := extractAQIs_err _ h
    simp only [aggregateRow, hext]
    have hlt : 0 < (x :: xs).length := by exact Nat.succ_pos xs.length
    rw [if_pos hlt]

/-- Witness for the amended C6: applied at the concrete list
`[exPM25, badRec]`. -/
theorem missing_aqi_key_aborts_location_witness :
    aggregateRow (some [exPM25, badRec]) = Except.error "KeyError: AQI" :=
  missing_aqi_key_aborts_location [exPM25, badRec]
    ⟨badRec, by decide, by decide⟩

/-- The fetch outcomes the source treats as "no data" in the guard
`if aqi_data and len(aqi_data) > 0:` — a falsy `None` or an empty list. -/
def fetchNoData : Option (List RawRecord) → Prop
  | none => True
  | some l => l = []

instance : DecidablePred fetchNoData := fun o => by
  cases o with
  | none => exact isTrue trivial
  | some l => unfold fetchNoData; infer_instance

/-- All four derived columns of a row are absent. -/
def derivedNull (row : LocationRow) : Prop :=
  row.AQI = none ∧ row.AQICategory = none ∧ row.Latitude = none ∧ row.Longitude = none

/-- All four derived columns of a row are populated. -/
def derivedFull (row : LocationRow) : Prop :=
  row.AQI ≠ none ∧ row.AQICategory ≠ none ∧ row.Latitude ≠ none ∧ row.Longitude ≠ none

/-- The per-row aggregation yields the null group exactly on a failed or
empty fetch. -/
theorem aggregateRow_noData (o : Option (List RawRecord)) (h : fetchNoData o) :
    aggregateRow o = Except.ok none := by
  cases o with
  | none => rfl
  | some l =>
    have hl : l = [] := h
    subst hl
    rfl

/-- A successful per-row aggregation of a nonempty list yields a populated
result (every failure path of lines 184–190 is an exception, not a null). -/
theorem aggregateRow_ok_some (x : RawRecord) (xs : List RawRecord) (d : Option OverallResult)
    (h : aggregateRow (some (x :: xs)) = Except.ok d) : ∃ res, d = some res := by
  simp only [aggregateRow] at h
  have hlt : 0 < (x :: xs).length := Nat.succ_pos xs.length
  rw [if_pos hlt] at h
  split at h
  · exact Except.noConfusion h
  · split at h
    · split at h
      · injection h with h2
        exact ⟨_, h2.symm⟩
      · exact Except.noConfusion h
      · exact Except.noConfusion h
      · exact Except.noConfusion h
    · exact Except.noConfusion h

/-- A successfully enriched row keeps its static fields (city, ZIP). -/
theorem enrichRow_ok_static (fetch : String → Option (List RawRecord))
    (row r : LocationRow) (h : enrichRow fetch row = Except.ok r) :
    r.City = row.City ∧ r.ZIPCode = row.ZIPCode := by
  unfold enrichRow at h
  split at h
  · exact Except.noConfusion h
  · injection h with h2
    rw [← h2]
    exact ⟨rfl, rfl⟩

/-- A successfully enriched row has its four derived columns null together
exactly on a failed/empty fetch, populated together otherwise. -/
theorem enrichRow_ok_derived (fetch : String → Option (List RawRecord))
    (row r : LocationRow) (h : enrichRow fetch row = Except.ok r) :
    (fetchNoData (fetch row.ZIPCode) → derivedNull r) ∧
    (¬ fetchNoData (fetch row.ZIPCode) → derivedFull r) := by
  unfold enrichRow at h
  constructor
  · intro hno
    rw [aggregateRow_noData _ hno] at h
    injection h with h2
    rw [← h2]
    exact ⟨rfl, rfl, rfl, rfl⟩
  · intro hyes
    cases ho : fetch row.ZIPCode with
    | none => exact absurd (ho ▸ trivial) hyes
    | some l =>
      cases l with
      | nil => exact absurd (ho ▸ rfl) hyes
      | cons x xs =>
        rw [ho] at h
        cases hagg : aggregateRow (some (x :: xs)) with
        | error e => rw [hagg] at h; exact Except.noConfusion h
        | ok d =>
          rw [hagg] at h
          obtain ⟨res, hres⟩ := aggregateRow_ok_some x xs d hagg
          subst hres
          injection h with h2
          rw [← h2]
          refine ⟨?_, ?_, ?_, ?_⟩ <;> simp

/-- Structure of a successful table enrichment: same number of rows, and
row `i` of the output is the successful enrichment of row `i` of the
input (order preserved, no insertion, deletion or reordering). -/
theorem get_california_aqi_rows (fetch : String → Option (List RawRecord)) :
    ∀ (t t' : List LocationRow), get_california_aqi fetch t = Except.ok t' →
      t'.length = t.length ∧
      ∀ i (hi : i < t.length) (hi' : i < t'.length),
        enrichRow fetch (t.get ⟨i, hi⟩) = Except.ok (t'.get ⟨i, hi'⟩) := by
  intro t
  induction t with
  | nil =>
    intro t' h
    injection h with h2
    subst h2
    exact ⟨rfl, fun i hi _ => absurd hi (Nat.not_lt_zero i)⟩
  | cons row rest ih =>
    intro t' h
    unfold get_california_aqi at h
    cases hr : enrichRow fetch row with
    | error e => rw [hr] at h; exact Except.noConfusion h
    | ok r =>
      rw [hr] at h
      cases hrs : get_california_aqi fetch rest with
      | error e => rw [hrs] at h; exact Except.noConfusion h
      | ok rs =>
        rw [hrs] at h
        injection h with h2
        subst h2
        obtain ⟨hlen, hidx⟩ := ih rs hrs
        refine ⟨by simp [hlen], ?_⟩
        intro i hi hi'
        cases i with
        | zero => exact hr
        | succ n =>
          exact hidx n (Nat.lt_of_succ_lt_succ hi) (Nat.lt_of_succ_lt_succ hi')

/-- C4: in a successful enrichment, each output row's four derived fields
(AQI, category, latitude, longitude) are never partially null — all four
are populated or all four absent — and they are null together exactly
when the fetch for that row's ZIP code failed or returned an empty
observation list. -/
theorem derived_fields_null_together (fetch : String → Option (List RawRecord))
    (t t' : List LocationRow) (h : get_california_aqi fetch t = Except.ok t') :
    ∀ i (hi : i < t.length) (hi' : i < t'.length),
      (derivedNull (t'.get ⟨i, hi'⟩) ∨ derivedFull (t'.get ⟨i, hi'⟩)) ∧
      (derivedNull (t'.get ⟨i, hi'⟩) ↔ fetchNoData (fetch ((t.get ⟨i, hi⟩).ZIPCode))) := by
  intro i hi hi'
  obtain ⟨_, hidx⟩ := get_california_aqi_rows fetch t t' h
  have hrow := hidx i hi hi'
  obtain ⟨hnull, hfull⟩ := enrichRow_ok_derived fetch _ _ hrow
  by_cases hno : fetchNoData (fetch ((t.get ⟨i, hi⟩).ZIPCode))
  · exact ⟨Or.inl (hnull hno), ⟨fun _ => hno, fun _ => hnull hno⟩⟩
  · have hf := hfull hno
    refine ⟨Or.inr hf, ⟨fun hd => absurd hd.1 hf.1, fun hfd => absurd hfd hno⟩⟩

/-- A second static row (its fetch will fail in the demo gateway). -/
def rowSF : LocationRow :=
  { City := "San Francisco", ZIPCode := "94103",
    AQI := none, AQICategory := none, Latitude := none, Longitude := none }

/-- A third static row. -/
def rowSD : LocationRow :=
  { City := "San Diego", ZIPCode := "92101",
    AQI := none, AQICategory := none, Latitude := none, Longitude := none }

/-- A deterministic demo gateway: data for rows 1 and 3, failure for row 2. -/
def fetchDemo : String → Option (List RawRecord) := fun z =>
  if z = "90001" then some [exPM25, exO3]
  else if z = "92101" then some [tiePM25]
  else none

/-- The three-row demo table of §8. -/
def demoTable : List LocationRow := [rowLA, rowSF, rowSD]

/-- The enrichment of `demoTable` under `fetchDemo`. -/
def demoEnriched : List LocationRow :=
  [{ City := "Los Angeles", ZIPCode := "90001", AQI := some 85,
     AQICategory := some "Moderate", Latitude := some 3, Longitude := some 4 },
   rowSF,
   { City := "San Diego", ZIPCode := "92101", AQI := some 60,
     AQICategory := some "Moderate", Latitude := some 1, Longitude := some 2 }]

/-- Witness for C4: applied to the three-row demo table at the failed
row (index 1, fetch returns `None`). -/
theorem derived_fields_null_together_witness :
    (derivedNull (demoEnriched.get ⟨1, by decide⟩) ∨
     derivedFull (demoEnriched.get ⟨1, by decide⟩)) ∧
    (derivedNull (demoEnriched.get ⟨1, by decide⟩) ↔
      fetchNoData (fetchDemo ((demoTable.get ⟨1, by decide⟩).ZIPCode))) :=
  derived_fields_null_together fetchDemo demoTable demoEnriched rfl 1 (by decide) (by decide)

/-- The §6 gateway contract: every record of a successful fetch is
convertible to an Observation (carries all required fields). -/
def FetchWF (fetch : String → Option (List RawRecord)) : Prop :=
  ∀ z l, fetch z = some l → ∀ r ∈ l, RawRecord.wf r

/-- Under the gateway contract, a single row's enrichment never raises. -/
theorem enrichRow_total (fetch : String → Option (List RawRecord))
    (hf : FetchWF fetch) (row : LocationRow) :
    ∃ r, enrichRow fetch row = Except.ok r := by
  cases ho : fetch row.ZIPCode with
  | none =>
    have hrow : enrichRow fetch row =
        Except.ok { row with
          AQI := none,
          AQICategory := none,
          Latitude := none,
          Longitude := none } := by
      unfold enrichRow
      rw [ho]
      rfl
    exact ⟨_, hrow⟩
  | some l =>
    cases l with
    | nil =>
      have hrow : enrichRow fetch row =
          Except.ok { row with
            AQI := none,
            AQICategory := none,
            Latitude := none,
            Longitude := none } := by
        unfold enrichRow
        rw [ho]
        rfl
      exact ⟨_, hrow⟩
    | cons x xs =>
      obtain ⟨cat, lat, lon, _, _, _, hagg⟩ := aggregateRow_of_wf x xs (hf _ _ ho)
      have hrow : enrichRow fetch row =
          Except.ok { row with
            AQI := some (recKey (xs.foldl (pyMaxStep recKey) x)),
            AQICategory := some cat,
            Latitude := some lat,
            Longitude := some lon } := by
        unfold enrichRow
        rw [ho, hagg]
        rfl
      exact ⟨_, hrow⟩

/-- Under the gateway contract, the whole table enrichment never raises. -/
theorem get_california_aqi_total (fetch : String → Option (List RawRecord))
    (hf : FetchWF fetch) :
    ∀ t : List LocationRow, ∃ t', get_california_aqi fetch t = Except.ok t' := by
  intro t
  induction t with
  | nil => exact ⟨[], rfl⟩
  | cons row rest ih =>
    obtain ⟨r, hr⟩ := enrichRow_total fetch hf row
    obtain ⟨rs, hrs⟩ := ih
    refine ⟨r :: rs, ?_⟩
    unfold get_california_aqi
    rw [hr, hrs]

/-- C5: for every input table and every contract-conforming per-row fetch
outcome pattern (success, failure, or empty result per row), the Enricher
produces an output with exactly the same rows in the same order — same
length, same static city/ZIP fields at every index, no reordering,
deduplication or dropped rows — where a row whose fetch fails or returns
no data carries the null group in its original position, a row with data
is populated, and no per-row failure aborts the table-wide operation. -/
theorem enricher_preserves_rows (fetch : String → Option (List RawRecord))
    (hf : FetchWF fetch) (t : List LocationRow) :
    ∃ t', get_california_aqi fetch t = Except.ok t' ∧
      t'.length = t.length ∧
      ∀ i (hi : i < t.length) (hi' : i < t'.length),
        (t'.get ⟨i, hi'⟩).City = (t.get ⟨i, hi⟩).City ∧
        (t'.get ⟨i, hi'⟩).ZIPCode = (t.get ⟨i, hi⟩).ZIPCode ∧
        (fetchNoData (fetch ((t.get ⟨i, hi⟩).ZIPCode)) → derivedNull (t'.get ⟨i, hi'⟩)) ∧
        (¬ fetchNoData (fetch ((t.get ⟨i, hi⟩).ZIPCode)) → derivedFull (t'.get ⟨i, hi'⟩)) := by
  obtain ⟨t', ht'⟩ := get_california_aqi_total fetch hf t
  obtain ⟨hlen, hidx⟩ := get_california_aqi_rows fetch t t' ht'
  refine ⟨t', ht', hlen, ?_⟩
  intro i hi hi'
  have hrow := hidx i hi hi'
  obtain ⟨hc, hz⟩ := enrichRow_ok_static fetch _ _ hrow
  obtain ⟨hn, hfull⟩ := enrichRow_ok_derived fetch _ _ hrow
  exact ⟨hc, hz, hn, hfull⟩

/-- Witness for C5: applied to the three-row demo table, whose second
row's fetch fails while rows one and three succeed. -/
theorem enricher_preserves_rows_witness :
    ∃ t', get_california_aqi fetchDemo demoTable = Except.ok t' ∧
      t'.length = demoTable.length ∧
      ∀ i (hi : i < demoTable.length) (hi' : i < t'.length),
        (t'.get ⟨i, hi'⟩).City = (demoTable.get ⟨i, hi⟩).City ∧
        (t'.get ⟨i, hi'⟩).ZIPCode = (demoTable.get ⟨i, hi⟩).ZIPCode ∧
        (fetchNoData (fetchDemo ((demoTable.get ⟨i, hi⟩).ZIPCode)) →
          derivedNull (t'.get ⟨i, hi'⟩)) ∧
        (¬ fetchNoData (fetchDemo ((demoTable.get ⟨i, hi⟩).ZIPCode)) →
          derivedFull (t'.get ⟨i, hi'⟩)) := by
  have hf : FetchWF fetchDemo := by
    intro z l hzl r hr
    unfold fetchDemo at hzl
    split at hzl
    · injection hzl with h2
      subst h2
      have hmem : r = exPM25 ∨ r = exO3 := by simpa using hr
      rcases hmem with h | h <;> subst h <;> decide
    · split at hzl
      · injection hzl with h2
        subst h2
        have hmem : r = tiePM25 := by simpa using hr
        subst hmem
        decide
      · exact Option.noConfusion hzl
  exact enricher_preserves_rows fetchDemo hf demoTable

/-- Re-enriching an already-enriched row is a fixed point: the static
fields the loop reads are preserved, so the same fetch gives the same
aggregation and the same overwritten columns. -/
theorem enrichRow_idem (fetch : String → Option (List RawRecord)) (row r : LocationRow)
    (h : enrichRow fetch row = Except.ok r) :
    enrichRow fetch r = Except.ok r := by
  unfold enrichRow at h
  cases hagg : aggregateRow (fetch row.ZIPCode) with
  | error e => rw [hagg] at h; exact Except.noConfusion h
  | ok d =>
    rw [hagg] at h
    injection h with h2
    obtain ⟨c, z, a, b, la, lo⟩ := r
    injection h2 with e1 e2 e3 e4 e5 e6
    have hz2 : aggregateRow (fetch z) = Except.ok d := by rw [← e2]; exact hagg
    simp only [enrichRow, hz2, e3, e4, e5, e6]

/-- C8: running the Enricher again on a successfully enriched table with
the same deterministic gateway reproduces that table exactly, field for
field. -/
theorem enricher_idempotent (fetch : String → Option (List RawRecord)) :
    ∀ (t t' : List LocationRow), get_california_aqi fetch t = Except.ok t' →
      get_california_aqi fetch t' = Except.ok t' := by
  intro t
  induction t with
  | nil =>
    intro t' h
    injection h with h2
    subst h2
    rfl
  | cons row rest ih =>
    intro t' h
    unfold get_california_aqi at h
    cases hr : enrichRow fetch row with
    | error e => rw [hr] at h; exact Except.noConfusion h
    | ok r =>
      rw [hr] at h
      cases hrs : get_california_aqi fetch rest with
      | error e => rw [hrs] at h; exact Except.noConfusion h
      | ok rs =>
        rw [hrs] at h
        injection h with h2
        subst h2
        have h1 := enrichRow_idem fetch row r hr
        have h3 := ih rs hrs
        unfold get_california_aqi
        rw [h1, h3]

/-- Witness for C8: the theorem applied to the demo table — re-enriching
`demoEnriched` reproduces `demoEnriched`. -/
theorem enricher_idempotent_witness :
    get_california_aqi fetchDemo demoEnriched = Except.ok demoEnriched :=
  enricher_idempotent fetchDemo demoTable demoEnriched rfl

/-- Counterexample for C10: the empty input string is not 5 characters
long, yet the lookup flow reports no validation error at all — the guard
`if search_button and zip_input:` treats empty input as falsy and does
nothing (the gateway is still not invoked). -/
theorem empty_zip_no_error_counterexample :
    ("" : String).length ≠ 5 ∧
    zipLookup discFetch "" = (LookupOutcome.noAction, false) ∧
    LookupOutcome.noAction ≠ LookupOutcome.validationError := by
  decide

/-- C10 as amended: for every NON-EMPTY input (of ASCII characters, where
this model of `str.isdigit` is exact) that is not exactly 5 characters or
contains a non-digit character, the lookup flow reports a validation
error and never invokes the fetch gateway; for the empty input the
gateway is likewise never invoked, but no validation error is shown. -/
theorem invalid_zip_validated_before_fetch :
    (∀ (fetch : String → Option (List RawRecord)) (s : String),
      s.length ≠ 0 →
      (∀ c ∈ s.data, c.toNat < 128) →
      (s.length ≠ 5 ∨ ¬ s.data.all (fun c => ('0' ≤ c) && (c ≤ '9')) = true) →
      zipLookup fetch s = (LookupOutcome.validationError, false)) ∧
    (∀ fetch : String → Option (List RawRecord),
      zipLookup fetch "" = (LookupOutcome.noAction, false)) := by
  constructor
  · intro fetch s hne _ hbad
    have hcond : s.length ≠ 5 ∨ pyIsdigit s = false := by
      rcases hbad with h | h
      · exact Or.inl h
      · refine Or.inr ?_
        cases hb : s.data.all (fun c => ('0' ≤ c) && (c ≤ '9')) with
        | false => unfold pyIsdigit; rw [hb, Bool.and_false]
        | true => exact absurd hb h
    unfold zipLookup
    rw [if_pos hne, if_pos hcond]
  · intro fetch
    rfl

/-- Witness for the amended C10: applied at the concrete invalid inputs
"123" (wrong length) and "12a45" (non-digit character). -/
theorem invalid_zip_validated_before_fetch_witness :
    zipLookup discFetch "123" = (LookupOutcome.validationError, false) ∧
    zipLookup discFetch "12a45" = (LookupOutcome.validationError, false) ∧
    zipLookup discFetch "" = (LookupOutcome.noAction, false) :=
  ⟨invalid_zip_validated_before_fetch.1 discFetch "123" (by decide) (by decide)
     (Or.inl (by decide)),
   invalid_zip_validated_before_fetch.1 discFetch "12a45" (by decide) (by decide)
     (Or.inr (by decide)),
   invalid_zip_validated_before_fetch.2 discFetch⟩
